import Mathlib

/-
  Shallow embedding of the ktk Kinesis toolkit core: the batching producer
  (producer/producer.go and the older producer.go BufferedProducer variant)
  and the shard-topology consumer (the consumer package).

  Machine integers are modelled as Nat; byte strings as List Nat; durations
  as Nat milliseconds.  The Kinesis backend is modelled as an oracle: a list
  of responses consumed in order (for PutRecords and GetRecords) or a
  function from the request to a page (for DescribeStream).  Loops without a
  structural bound take the oracle list (or fuel) as the decreasing measure.
-/

/-- intMin from producer/producer.go. -/
def intMin (x y : Nat) : Nat := if x < y then x else y

/-- A UTF-8 continuation byte, 0x80..0xBF. -/
def utf8Cont (b : Nat) : Bool := decide (0x80 ≤ b) && decide (b ≤ 0xBF)

/-- unicode/utf8 ValidString over the bytes of a Go string: well-formed UTF-8
    (no overlong forms, no surrogates, max U+10FFFF), as the Go standard
    library acceptance ranges define it. -/
def validUtf8 : List Nat → Bool
  | [] => true
  | b :: bs =>
    if b ≤ 0x7F then validUtf8 bs
    else if 0xC2 ≤ b ∧ b ≤ 0xDF then
      match bs with
      | b1 :: rest => utf8Cont b1 && validUtf8 rest
      | [] => false
    else if b = 0xE0 then
      match bs with
      | b1 :: b2 :: rest =>
        (decide (0xA0 ≤ b1) && decide (b1 ≤ 0xBF)) && utf8Cont b2 && validUtf8 rest
      | _ => false
    else if (0xE1 ≤ b ∧ b ≤ 0xEC) ∨ (0xEE ≤ b ∧ b ≤ 0xEF) then
      match bs with
      | b1 :: b2 :: rest => utf8Cont b1 && utf8Cont b2 && validUtf8 rest
      | _ => false
    else if b = 0xED then
      match bs with
      | b1 :: b2 :: rest =>
        (decide (0x80 ≤ b1) && decide (b1 ≤ 0x9F)) && utf8Cont b2 && validUtf8 rest
      | _ => false
    else if b = 0xF0 then
      match bs with
      | b1 :: b2 :: b3 :: rest =>
        (decide (0x90 ≤ b1) && decide (b1 ≤ 0xBF)) && utf8Cont b2 && utf8Cont b3 &&
          validUtf8 rest
      | _ => false
    else if 0xF1 ≤ b ∧ b ≤ 0xF3 then
      match bs with
      | b1 :: b2 :: b3 :: rest => utf8Cont b1 && utf8Cont b2 && utf8Cont b3 && validUtf8 rest
      | _ => false
    else if b = 0xF4 then
      match bs with
      | b1 :: b2 :: b3 :: rest =>
        (decide (0x80 ≤ b1) && decide (b1 ≤ 0x8F)) && utf8Cont b2 && utf8Cont b3 &&
          validUtf8 rest
      | _ => false
    else false

/-- The message pair buffered by the producer: partition key and value, both
    raw byte sequences. -/
structure Message where
  partitionKey : List Nat
  value : List Nat
deriving DecidableEq, Repr

/-- The four validation error values of producer/producer.go. -/
inductive ValidationErr
  | emptyPartitionKey
  | partitionKeyTooLong
  | invalidUnicode
  | emptyValue
deriving DecidableEq, Repr

/-- validate from producer/producer.go: the multierror accumulates every
    violated rule, in check order. -/
def validate (key value : List Nat) : List ValidationErr :=
  (if key.length = 0 then [ValidationErr.emptyPartitionKey] else []) ++
  (if 256 < key.length then [ValidationErr.partitionKeyTooLong] else []) ++
  (if validUtf8 key = false then [ValidationErr.invalidUnicode] else []) ++
  (if value.length = 0 then [ValidationErr.emptyValue] else [])

/-- multierror ErrorOrNil: nil iff no error was appended. -/
def errorOrNil (errs : List ValidationErr) : Option (List ValidationErr) :=
  if errs.isEmpty then none else some errs

/-- exponentialThrottle from producer/backoff.go, unit fixed to a
    millisecond. -/
structure ExponentialThrottle where
  waitFor : Nat
  maxWait : Nat
deriving DecidableEq, Repr

/-- Await: sleep waitFor milliseconds, then double waitFor up to maxWait.
    Returns the slept duration and the updated throttle. -/
def ExponentialThrottle.await (e : ExponentialThrottle) : Nat × ExponentialThrottle :=
  (e.waitFor, { waitFor := intMin (2 * e.waitFor) e.maxWait, maxWait := e.maxWait })

/-- The Throttle factory installed by New: a fresh exponential throttle with a
    500 ms base and 10000 ms cap. -/
def defaultThrottle : Unit → ExponentialThrottle :=
  fun _ => { waitFor := 500, maxWait := 10000 }

/-- One entry of a PutRecords result: optional error code and message. -/
structure ResultEntry where
  errorCode : Option String
  errorMessage : Option String
deriving DecidableEq, Repr

/-- A PutRecords outcome: a whole-batch transport error, or a response with
    its FailedRecordCount field and per-record result entries. -/
inductive PutResp
  | err (e : String)
  | ok (failedRecordCount : Nat) (records : List ResultEntry)
deriving DecidableEq, Repr

/-- failedMessages from producer/producer.go: walk the result entries
    alongside the submitted messages and keep the messages whose entry
    carries an error code.  (The Go loop indexes messages by the record
    position; a response is as long as the request.) -/
def failedMessages : List Message → List ResultEntry → List Message
  | _, [] => []
  | [], _ :: _ => []
  | m :: ms, r :: rest =>
    if r.errorCode.isSome then m :: failedMessages ms rest else failedMessages ms rest

/-- Number of result entries that carry an error code. -/
def countErrored (recs : List ResultEntry) : Nat :=
  (recs.filter (fun r => r.errorCode.isSome)).length

/-- The failed subset as the spec words it: pair each submitted message with
    its per-record result, keep exactly the pairs whose result carries an
    error code, in submission order. -/
def failedSubsetSpec (msgs : List Message) (recs : List ResultEntry) : List Message :=
  ((msgs.zip recs).filter (fun p => p.2.errorCode.isSome)).map Prod.fst

/-- How the send retry loop of producer/producer.go exits. -/
inductive LoopOut
  | ok
  | transportErr (e : String)
  | pending
deriving DecidableEq, Repr

/-- Observable trace of the send retry loop: the PutRecords calls issued, the
    backoff waits (ms) between them, the exit, and the unconsumed oracle. -/
structure LoopTrace where
  calls : List (List Message)
  waits : List Nat
  out : LoopOut
  rest : List PutResp
deriving DecidableEq, Repr

/-- The retry loop inside Producer.send (producer/producer.go).  Each
    iteration submits the current messages and consumes one oracle response:
    a client error returns it; a response with FailedRecordCount zero
    returns nil; otherwise the messages shrink to failedMessages and, after
    awaiting a freshly built throttle from the factory, the loop repeats.
    An exhausted oracle leaves the final call pending. -/
def sendLoop (throttle : Unit → ExponentialThrottle) :
    List Message → List PutResp → LoopTrace
  | msgs, [] => ⟨[msgs], [], LoopOut.pending, []⟩
  | msgs, PutResp.err e :: rs => ⟨[msgs], [], LoopOut.transportErr e, rs⟩
  | msgs, PutResp.ok cnt recs :: rs =>
    if cnt = 0 then ⟨[msgs], [], LoopOut.ok, rs⟩
    else
      let t := sendLoop throttle (failedMessages msgs recs) rs
      ⟨msgs :: t.calls, ((throttle ()).await).1 :: t.waits, t.out, t.rest⟩

/-- MaxSendSize from producer/producer.go. -/
def MaxSendSize : Nat := 500

/-- State of a Producer (producer/producer.go): configured SendSize, the
    length of the backing messages array, and the buffered prefix
    messages[0:current]. -/
structure ProducerState where
  sendSize : Nat
  arrLen : Nat
  buffer : List Message
deriving DecidableEq, Repr

/-- New: SendSize MaxSendSize, messages array of length MaxSendSize, empty
    buffer. -/
def Producer.new : ProducerState :=
  { sendSize := MaxSendSize, arrLen := MaxSendSize, buffer := [] }

/-- reset: current back to zero and a fresh backing array of length
    SendSize. -/
def Producer.reset (p : ProducerState) : ProducerState :=
  { sendSize := p.sendSize, arrLen := p.sendSize, buffer := [] }

/-- The error a Put or Flush returns: validation errors, the transport error
    surfaced by send, or noReturn marking an exhausted oracle (the Go loop
    would still be running). -/
inductive PutErr
  | validation (errs : List ValidationErr)
  | transport (e : String)
  | noReturn
deriving DecidableEq, Repr

/-- Observable result of Put, Flush or send on the Producer. -/
structure PutOut where
  calls : List (List Message)
  waits : List Nat
  error : Option PutErr
  state : ProducerState
  rest : List PutResp
deriving DecidableEq, Repr

/-- Producer.send from producer/producer.go.  The guard tests the length of
    the backing array (len of messages) — not the fill count — and returns
    nil without touching the client when that length is zero.  Otherwise the
    retry loop runs on messages[0:current] and the deferred reset empties the
    buffer on every return path. -/
def Producer.send (throttle : Unit → ExponentialThrottle) (p : ProducerState)
    (rs : List PutResp) : PutOut :=
  if p.arrLen = 0 then ⟨[], [], none, p, rs⟩
  else
    let t := sendLoop throttle p.buffer rs
    match t.out with
    | LoopOut.ok => ⟨t.calls, t.waits, none, Producer.reset p, t.rest⟩
    | LoopOut.transportErr e =>
      ⟨t.calls, t.waits, some (PutErr.transport e), Producer.reset p, t.rest⟩
    | LoopOut.pending => ⟨t.calls, t.waits, some PutErr.noReturn, p, t.rest⟩

/-- Producer.Put from producer/producer.go: validate, buffer, and send once
    the buffer reaches SendSize. -/
def Producer.put (throttle : Unit → ExponentialThrottle) (p : ProducerState)
    (key value : List Nat) (rs : List PutResp) : PutOut :=
  let errs := validate key value
  if errs.isEmpty then
    let p2 : ProducerState :=
      { sendSize := p.sendSize, arrLen := p.arrLen, buffer := p.buffer ++ [⟨key, value⟩] }
    if p2.buffer.length = p2.sendSize then Producer.send throttle p2 rs
    else ⟨[], [], none, p2, rs⟩
  else ⟨[], [], some (PutErr.validation errs), p, rs⟩

/-- Producer.Flush from producer/producer.go: just send. -/
def Producer.flush (throttle : Unit → ExponentialThrottle) (p : ProducerState)
    (rs : List PutResp) : PutOut :=
  Producer.send throttle p rs

/-- A message rejected by a submission attempt (producer.go FailedPut):
    error code and message are absent when the whole submission failed at
    the transport level. -/
structure FailedPut where
  message : Message
  errorCode : Option String
  errorMessage : Option String
deriving DecidableEq, Repr

/-- State of the older BufferedProducer (producer.go): SendSize and the
    buffered prefix of the backing arrays, messages[0:current]. -/
structure BufferedState where
  sendSize : Nat
  buffer : List Message
deriving DecidableEq, Repr

/-- Observable result of BufferedProducer send: the PutRecords calls issued,
    the FailedPut list, the transport error, and the state after. -/
structure BSendOut where
  calls : List (List Message)
  failures : List FailedPut
  error : Option String
  state : BufferedState
deriving DecidableEq, Repr

/-- The zip in the partial-failure branch of BufferedProducer send: pair the
    sent messages with the per-record results and keep the failed ones with
    their code and message. -/
def collectFailures : List Message → List ResultEntry → List FailedPut
  | _, [] => []
  | [], _ :: _ => []
  | m :: ms, r :: rest =>
    if r.errorCode.isSome then ⟨m, r.errorCode, r.errorMessage⟩ :: collectFailures ms rest
    else collectFailures ms rest

/-- The zero value of FailedPut, as Go make allocates it. -/
def defaultFailedPut : FailedPut := ⟨⟨[], []⟩, none, none⟩

/-- BufferedProducer send (producer.go).  Early nil return when current is
    zero, before any client call.  Otherwise one PutRecords call — never a
    resubmission — with the deferred reset emptying the buffer on every
    return path: a client error turns every buffered message into a
    FailedPut with no code alongside the error; a response with a positive
    FailedRecordCount yields the failed entries (the Go code allocates
    FailedRecordCount slots and fills them with the entries that carry an
    error code, zero values padding any slack); otherwise nil. -/
def BufferedProducer.send (b : BufferedState) (resp : PutResp) : BSendOut :=
  if b.buffer.length = 0 then ⟨[], [], none, b⟩
  else
    let b2 : BufferedState := { sendSize := b.sendSize, buffer := [] }
    match resp with
    | PutResp.err e =>
      ⟨[b.buffer], b.buffer.map (fun m => ⟨m, none, none⟩), some e, b2⟩
    | PutResp.ok cnt recs =>
      if 0 < cnt then
        let fs := collectFailures b.buffer recs
        ⟨[b.buffer], fs ++ List.replicate (cnt - fs.length) defaultFailedPut, none, b2⟩
      else ⟨[b.buffer], [], none, b2⟩

/-- BufferedProducer Flush: just send. -/
def BufferedProducer.flush (b : BufferedState) (resp : PutResp) : BSendOut :=
  BufferedProducer.send b resp

/-- A Kinesis shard as the consumer sees it: ShardId, ParentShardId
    (parentOne) and AdjacentParentShardId (parentTwo). -/
structure KShard where
  shardId : String
  parentShardId : Option String
  adjacentParentShardId : Option String
deriving DecidableEq, Repr

/-- withNoChildren from the consumer package: mark every id referenced as
    AdjacentParentShardId or ParentShardId as having children, then keep the
    ids of the shards not so marked, in listing order. -/
def withNoChildren (shards : List KShard) : List String :=
  let hasChildren : String → Bool := fun id =>
    shards.any (fun s =>
      s.adjacentParentShardId == some id || s.parentShardId == some id)
  (shards.filter (fun s => !hasChildren s.shardId)).map (fun s => s.shardId)

/-- nextShards from the consumer package: the listed shards whose
    ParentShardId equals the finished id. -/
def nextShards (finished : String) (shards : List KShard) : List KShard :=
  shards.filter (fun s => s.parentShardId == some finished)

/-- The two shard-iterator types the consumer uses. -/
inductive IterType
  | latest
  | trimHorizon
deriving DecidableEq, Repr

/-- One round of Consumer monitor after a completion signal: given the
    completed shard id and the re-listed shards, the (shard id, iterator
    type) pairs handed to startShardConsumer — one per nextShards element,
    always with TRIM_HORIZON. -/
def monitorLaunches (completeShard : String) (shards : List KShard) :
    List (String × IterType) :=
  (nextShards completeShard shards).map (fun s => (s.shardId, IterType.trimHorizon))

/-- One GetRecords outcome for a shard consumer: a retryable throughput
    error, a fatal error (the code panics), or records plus the next
    iterator (absent when the shard is exhausted). -/
inductive PollResp
  | throttled
  | fatal
  | ok (records : List String) (next : Option String)
deriving DecidableEq, Repr

/-- Observable events of a shard consumer run. -/
inductive Event
  | poll
  | wait (ms : Nat)
  | process (records : List String)
  | complete (shard : String)
  | panicked
deriving DecidableEq, Repr

/-- maybeDouble from the consumer package. -/
def maybeDouble (current max : Nat) : Nat :=
  if max < 2 * current then max else 2 * current

/-- shardConsumer consume: poll in a loop over the oracle of GetRecords
    outcomes.  A throughput error waits the current backoff and doubles it
    (capped at 10000 ms); a fatal error panics; a success resets the backoff
    to 250 ms, replaces the iterator, processes the records, and — when the
    next iterator is absent — leaves the loop and emits the completion
    signal carrying the shard id.  An exhausted oracle leaves the last poll
    in flight. -/
def consume (shard : String) (waitTime : Nat) : List PollResp → List Event
  | [] => [Event.poll]
  | PollResp.throttled :: rs =>
    Event.poll :: Event.wait waitTime :: consume shard (maybeDouble waitTime 10000) rs
  | PollResp.fatal :: _ => [Event.poll, Event.panicked]
  | PollResp.ok recs next :: rs =>
    Event.poll :: Event.process recs ::
      (match next with
       | none => [Event.complete shard]
       | some _ => consume shard 250 rs)

/-- A DescribeStream request: the stream name and the optional
    ExclusiveStartShardId pagination cursor. -/
structure DescribeStreamInput where
  streamName : String
  exclusiveStartShardId : Option String
deriving DecidableEq, Repr

/-- One DescribeStream response page: shards and the HasMoreShards flag. -/
structure StreamPage where
  shards : List KShard
  hasMoreShards : Bool
deriving DecidableEq, Repr

/-- Consumer listShards: call DescribeStream and accumulate the returned
    shards until HasMoreShards is false.  The request the code builds
    carries only the stream name — no ExclusiveStartShardId is ever set.
    fuel bounds the number of DescribeStream calls; none means the loop was
    still running when the fuel ran out. -/
def listShards (client : DescribeStreamInput → StreamPage) (stream : String) :
    Nat → List KShard → Option (List KShard)
  | 0, _ => none
  | fuel + 1, acc =>
    let resp := client { streamName := stream, exclusiveStartShardId := none }
    let acc2 := acc ++ resp.shards
    if resp.hasMoreShards then listShards client stream fuel acc2 else some acc2

/-- A leaf shard used by concrete topologies below. -/
def shardA : KShard := ⟨"shard-A", none, none⟩

/-- A second leaf shard used by concrete topologies below. -/
def shardB : KShard := ⟨"shard-B", none, none⟩

/-- A backend whose shard listing spans two pages: a request without a
    cursor returns the first page (shard-A, more data available); a request
    whose cursor names the last seen shard returns the second page
    (shard-B, no more data). -/
def twoPageClient : DescribeStreamInput → StreamPage := fun input =>
  match input.exclusiveStartShardId with
  | none => ⟨[shardA], true⟩
  | some _ => ⟨[shardB], false⟩

/-- Whether an event is a completion signal. -/
def isComplete : Event → Bool
  | Event.complete _ => true
  | _ => false

/-- A concrete valid message used in witnesses. -/
def m1 : Message := ⟨[97], [1]⟩

/-- A second concrete valid message used in witnesses. -/
def m2 : Message := ⟨[98], [2]⟩

/-- A per-record result with no error code: the record was accepted. -/
def okEntry : ResultEntry := ⟨none, none⟩

/-- A per-record result carrying an error code: the record failed. -/
def errEntry : ResultEntry := ⟨some "E", some "M"⟩

/- ------------------------------------------------------------------ -/
/- Helper lemmas shared by the claim theorems.                         -/
/- ------------------------------------------------------------------ -/

/-- The code-side failed subset coincides with the spec-side zip-filter
    description, for every pair of lists. -/
theorem failedMessages_eq_spec (msgs : List Message) (recs : List ResultEntry) :
    failedMessages msgs recs = failedSubsetSpec msgs recs := by
  induction msgs generalizing recs with
  | nil => cases recs <;> simp [failedMessages, failedSubsetSpec]
  | cons m ms ih =>
    cases recs with
    | nil => simp [failedMessages, failedSubsetSpec]
    | cons r rest =>
      simp only [failedMessages, failedSubsetSpec, List.zip_cons_cons, List.filter_cons]
      by_cases h : r.errorCode.isSome
      · simpa [h, failedSubsetSpec] using ih rest
      · simpa [h, failedSubsetSpec] using ih rest

/-- The failed subset preserves submission order: it is a sublist of the
    submitted messages. -/
theorem failedSubsetSpec_sublist (msgs : List Message) (recs : List ResultEntry) :
    List.Sublist (failedSubsetSpec msgs recs) msgs := by
  induction msgs generalizing recs with
  | nil => simp [failedSubsetSpec]
  | cons m ms ih =>
    cases recs with
    | nil => simp [failedSubsetSpec]
    | cons r rest =>
      simp only [failedSubsetSpec, List.zip_cons_cons, List.filter_cons]
      by_cases h : r.errorCode.isSome
      · simpa [h, failedSubsetSpec] using (ih rest).cons₂ m
      · simpa [h, failedSubsetSpec] using (ih rest).cons m

/-- With a response at least as long as the request, the failed subset has
    exactly as many messages as there are errored result entries. -/
theorem failedSubsetSpec_length (msgs : List Message) (recs : List ResultEntry)
    (h : recs.length ≤ msgs.length) :
    (failedSubsetSpec msgs recs).length = countErrored recs := by
  induction msgs generalizing recs with
  | nil =>
    cases recs with
    | nil => simp [failedSubsetSpec, countErrored]
    | cons r rest => simp at h
  | cons m ms ih =>
    cases recs with
    | nil => simp [failedSubsetSpec, countErrored]
    | cons r rest =>
      have hrest : rest.length ≤ ms.length := by
        simpa using Nat.le_of_succ_le_succ h
      simp only [failedSubsetSpec, countErrored, List.zip_cons_cons, List.filter_cons]
      by_cases hr : r.errorCode.isSome
      · simpa [hr, failedSubsetSpec, countErrored] using ih rest hrest
      · simpa [hr, failedSubsetSpec, countErrored] using ih rest hrest

/-- The first call the retry loop issues is always the current message
    list. -/
theorem sendLoop_calls_head (f : Unit → ExponentialThrottle)
    (msgs : List Message) (rs : List PutResp) :
    (sendLoop f msgs rs).calls.head? = some msgs := by
  cases rs with
  | nil => simp [sendLoop]
  | cons r rs2 =>
    cases r with
    | err e => simp [sendLoop]
    | ok cnt recs =>
      by_cases h : cnt = 0 <;> simp [sendLoop, h]

/-- Shape of a shard-consumer trace: either it holds no completion signal at
    all, or it is a completion-free prefix followed by exactly one final
    completion signal carrying the consumer shard id. -/
theorem consume_shape (shard : String) (waitTime : Nat) (rs : List PollResp) :
    (∀ e ∈ consume shard waitTime rs, isComplete e = false) ∨
    ∃ t, consume shard waitTime rs = t ++ [Event.complete shard] ∧
      ∀ e ∈ t, isComplete e = false := by
  induction rs generalizing waitTime with
  | nil =>
    left
    intro e he
    simp only [consume, List.mem_singleton] at he
    subst he
    rfl
  | cons r rs2 ih =>
    cases r with
    | throttled =>
      rcases ih (maybeDouble waitTime 10000) with h | ⟨t, ht, hc⟩
      · left
        intro e he
        simp only [consume, List.mem_cons] at he
        rcases he with rfl | rfl | he
        · rfl
        · rfl
        · exact h e he
      · right
        refine ⟨Event.poll :: Event.wait waitTime :: t, ?_, ?_⟩
        · simp [consume, ht]
        · intro e he
          rcases he with _ | ⟨_, he⟩
          · rfl
          · rcases he with _ | ⟨_, he⟩
            · rfl
            · exact hc e he
    | fatal =>
      left
      intro e he
      simp only [consume, List.mem_cons] at he
      rcases he with rfl | rfl | he
      · rfl
      · rfl
      · exact absurd he (List.not_mem_nil e)
    | ok recs next =>
      cases next with
      | none =>
        right
        refine ⟨[Event.poll, Event.process recs], rfl, ?_⟩
        intro e he
        simp only [List.mem_cons] at he
        rcases he with rfl | rfl | he
        · rfl
        · rfl
        · exact absurd he (List.not_mem_nil e)
      | some it =>
        rcases ih 250 with h | ⟨t, ht, hc⟩
        · left
          intro e he
          simp only [consume, List.mem_cons] at he
          rcases he with rfl | rfl | he
          · rfl
          · rfl
          · exact h e he
        · right
          refine ⟨Event.poll :: Event.process recs :: t, ?_, ?_⟩
          · simp [consume, ht]
          · intro e he
            rcases he with _ | ⟨_, he⟩
            · rfl
            · rcases he with _ | ⟨_, he⟩
              · rfl
              · exact hc e he

/- ------------------------------------------------------------------ -/
/- Claim theorems.                                                     -/
/- ------------------------------------------------------------------ -/

/-- Claim C1: when a submission of N buffered messages gets a response
    reporting K failed entries with 0 < K < N (entries whose per-record
    result carries an error code), the next submission the send retry loop
    issues is exactly the failed subset: the K failed messages in their
    original order (a sublist of the submission) and none of the N - K
    succeeded ones. -/
theorem c1_retry_exactly_failed_subset (f : Unit → ExponentialThrottle)
    (msgs : List Message) (cnt : Nat) (recs : List ResultEntry)
    (rs : List PutResp)
    (hlen : recs.length = msgs.length)
    (hcnt : cnt = countErrored recs)
    (hpos : 0 < cnt) (hlt : cnt < msgs.length) :
    ((sendLoop f msgs (PutResp.ok cnt recs :: rs)).calls.drop 1).head? =
      some (failedSubsetSpec msgs recs) ∧
    (failedSubsetSpec msgs recs).length = cnt ∧
    List.Sublist (failedSubsetSpec msgs recs) msgs := by
  have hc : ¬ cnt = 0 := Nat.pos_iff_ne_zero.mp hpos
  refine ⟨?_, ?_, failedSubsetSpec_sublist msgs recs⟩
  · simp only [sendLoop, if_neg hc, List.drop_succ_cons, List.drop_zero]
    simpa [failedMessages_eq_spec] using
      sendLoop_calls_head f (failedMessages msgs recs) rs
  · rw [failedSubsetSpec_length msgs recs (le_of_eq hlen), hcnt]

/-- Witness for C1: a two-message submission whose response reports one
    failed entry (the second) retries exactly that one message. -/
theorem c1_witness :
    ((sendLoop defaultThrottle [m1, m2]
        (PutResp.ok 1 [okEntry, errEntry] :: [])).calls.drop 1).head? =
      some (failedSubsetSpec [m1, m2] [okEntry, errEntry]) ∧
    (failedSubsetSpec [m1, m2] [okEntry, errEntry]).length = 1 ∧
    List.Sublist (failedSubsetSpec [m1, m2] [okEntry, errEntry]) [m1, m2] :=
  c1_retry_exactly_failed_subset defaultThrottle [m1, m2] 1 [okEntry, errEntry] []
    (by decide) (by decide) (by decide) (by decide)

/-- Claim C10: the send retry loop calls the Throttle factory anew before
    every wait, so with the factory New installs every wait between
    consecutive resubmissions of one send call is the 500 ms base — even
    though a single Await does double the throttle it hands back, the
    doubled throttle is discarded. -/
theorem c10_fresh_throttle_every_retry (msgs : List Message) (rs : List PutResp) :
    (∀ w ∈ (sendLoop defaultThrottle msgs rs).waits, w = 500) ∧
    (defaultThrottle ()).await = (500, { waitFor := 1000, maxWait := 10000 }) := by
  refine ⟨?_, rfl⟩
  induction rs generalizing msgs with
  | nil => simp [sendLoop]
  | cons r rs2 ih =>
    cases r with
    | err e => simp [sendLoop]
    | ok cnt recs =>
      by_cases h : cnt = 0
      · simp [sendLoop, h]
      · simp only [sendLoop, if_neg h]
        intro w hw
        rcases List.mem_cons.mp hw with h1 | h2
        · simpa using h1
        · exact ih (failedMessages msgs recs) w h2

/-- Witness for C10: a retried submission waits exactly 500 ms. -/
theorem c10_witness :
    (500 : Nat) ∈ (sendLoop defaultThrottle [m1, m2]
        [PutResp.ok 1 [okEntry, errEntry], PutResp.ok 0 [okEntry]]).waits ∧
    (500 : Nat) = 500 :=
  ⟨by decide,
   (c10_fresh_throttle_every_retry [m1, m2]
      [PutResp.ok 1 [okEntry, errEntry], PutResp.ok 0 [okEntry]]).1 500 (by decide)⟩

/-- Claim C2: the leaf set computed by withNoChildren contains the id of a
    listed shard iff no shard of the snapshot references that id as
    ParentShardId or AdjacentParentShardId; in particular three shards with
    no parent references are all leaves, and a parent with two children is
    not. -/
theorem c2_leaf_iff_unreferenced :
    (∀ (shards : List KShard) (s : KShard), s ∈ shards →
      (s.shardId ∈ withNoChildren shards ↔
        ∀ t ∈ shards, t.parentShardId ≠ some s.shardId ∧
          t.adjacentParentShardId ≠ some s.shardId)) ∧
    withNoChildren [⟨"A", none, none⟩, ⟨"B", none, none⟩, ⟨"C", none, none⟩] =
      ["A", "B", "C"] ∧
    withNoChildren [⟨"A", none, none⟩, ⟨"B", some "A", none⟩, ⟨"C", some "A", none⟩] =
      ["B", "C"] := by
  refine ⟨?_, by decide, by decide⟩
  intro shards s hs
  constructor
  · intro hmem t ht
    simp only [withNoChildren, List.mem_map, List.mem_filter] at hmem
    obtain ⟨u, ⟨humem, hu⟩, huid⟩ := hmem
    rw [Bool.not_eq_true', List.any_eq_false] at hu
    have := hu t ht
    rw [huid] at this
    simp only [Bool.or_eq_true, beq_iff_eq, not_or] at this
    exact ⟨this.2, this.1⟩
  · intro h
    simp only [withNoChildren, List.mem_map, List.mem_filter]
    refine ⟨s, ⟨hs, ?_⟩, rfl⟩
    rw [Bool.not_eq_true', List.any_eq_false]
    intro t ht
    have := h t ht
    simp only [Bool.or_eq_true, beq_iff_eq, not_or]
    exact ⟨this.2, this.1⟩

/-- Witness for C2: shard B of the split topology is a leaf because nothing
    references it as a parent. -/
theorem c2_witness :
    (⟨"B", some "A", none⟩ : KShard).shardId ∈
      withNoChildren [⟨"A", none, none⟩, ⟨"B", some "A", none⟩, ⟨"C", some "A", none⟩] :=
  (c2_leaf_iff_unreferenced.1
      [⟨"A", none, none⟩, ⟨"B", some "A", none⟩, ⟨"C", some "A", none⟩]
      ⟨"B", some "A", none⟩ (by decide)).mpr (by decide)

/-- Claim C3: a shard reader emits at most one completion signal, every
    completion signal carries its own shard id, nothing — in particular no
    further poll — follows a completion signal in its trace, and a poll
    response with an absent next iterator ends the run as exactly one poll,
    one processor call and one completion signal. -/
theorem c3_complete_once_then_stop (shard : String) (waitTime : Nat)
    (rs : List PollResp) :
    ((consume shard waitTime rs).filter isComplete).length ≤ 1 ∧
    (∀ s, Event.complete s ∈ consume shard waitTime rs → s = shard) ∧
    (∀ (pre post : List Event) (s : String),
      consume shard waitTime rs = pre ++ Event.complete s :: post → post = []) ∧
    (∀ (recs : List String) (rs2 : List PollResp),
      consume shard waitTime (PollResp.ok recs none :: rs2) =
        [Event.poll, Event.process recs, Event.complete shard]) := by
  rcases consume_shape shard waitTime rs with h | ⟨t, ht, hc⟩
  · refine ⟨?_, ?_, ?_, fun recs rs2 => rfl⟩
    · have hnil : (consume shard waitTime rs).filter isComplete = [] := by
        rw [List.filter_eq_nil_iff]
        intro e he
        simp [h e he]
      simp [hnil]
    · intro s hs
      have := h _ hs
      simp [isComplete] at this
    · intro pre post s heq
      have hmem : Event.complete s ∈ consume shard waitTime rs := by
        rw [heq]
        exact List.mem_append_right _ (List.mem_cons_self _ _)
      have := h _ hmem
      simp [isComplete] at this
  · refine ⟨?_, ?_, ?_, fun recs rs2 => rfl⟩
    · rw [ht, List.filter_append]
      have h1 : t.filter isComplete = [] := by
        rw [List.filter_eq_nil_iff]
        intro e he
        simp [hc e he]
      simp [h1, isComplete]
    · intro s hs
      rw [ht] at hs
      rcases List.mem_append.mp hs with h1 | h1
      · have := hc _ h1
        simp [isComplete] at this
      · have h2 := List.mem_singleton.mp h1
        injection h2
    · intro pre post s heq
      rcases List.eq_nil_or_concat post with hp | ⟨q, a, hq⟩
      · exact hp
      · exfalso
        subst hq
        rw [ht] at heq
        have heq2 : t ++ [Event.complete shard] =
            (pre ++ Event.complete s :: q) ++ [a] := by
          rw [heq]
          simp [List.append_assoc]
        obtain ⟨h1, h2⟩ := List.append_inj' heq2 rfl
        have hmem : Event.complete s ∈ t := by
          rw [h1]
          exact List.mem_append_right _ (List.mem_cons_self _ _)
        have := hc _ hmem
        simp [isComplete] at this

/-- Witness for C3: a single exhausted-shard poll response yields the
    three-event trace, and its completion signal is final. -/
theorem c3_witness :
    consume "shard-01" 250 [PollResp.ok ["a"] none] =
      [Event.poll, Event.process ["a"], Event.complete "shard-01"] ∧
    ([] : List Event) = [] :=
  ⟨(c3_complete_once_then_stop "shard-01" 250 [PollResp.ok ["a"] none]).2.2.2 ["a"] [],
   (c3_complete_once_then_stop "shard-01" 250 [PollResp.ok ["a"] none]).2.2.1
     [Event.poll, Event.process ["a"]] [] "shard-01" (by decide)⟩

/-- The error send returns is never a validation error. -/
theorem send_error_not_validation (f : Unit → ExponentialThrottle)
    (p : ProducerState) (rs : List PutResp) (errs : List ValidationErr) :
    (Producer.send f p rs).error ≠ some (PutErr.validation errs) := by
  unfold Producer.send
  by_cases h : p.arrLen = 0
  · simp [h]
  · simp only [if_neg h]
    cases hout : (sendLoop f p.buffer rs).out <;> simp [hout]

/-- Claim C4: Put returns a validation error iff the message violates at
    least one of the four rules (key non-empty, key at most 256 bytes, key
    valid UTF-8, payload non-empty); the aggregated error names exactly the
    violated rules; a failing Put issues no transport call and leaves the
    producer state — in particular the buffer — untouched; a message
    satisfying all four rules never receives a validation error. -/
theorem c4_validation_rules (key value : List Nat) :
    (errorOrNil (validate key value) = none ↔
      key ≠ [] ∧ key.length ≤ 256 ∧ validUtf8 key = true ∧ value ≠ []) ∧
    (ValidationErr.emptyPartitionKey ∈ validate key value ↔ key = []) ∧
    (ValidationErr.partitionKeyTooLong ∈ validate key value ↔ 256 < key.length) ∧
    (ValidationErr.invalidUnicode ∈ validate key value ↔ validUtf8 key = false) ∧
    (ValidationErr.emptyValue ∈ validate key value ↔ value = []) ∧
    (∀ (f : Unit → ExponentialThrottle) (p : ProducerState) (rs : List PutResp),
      validate key value ≠ [] →
      Producer.put f p key value rs =
        ⟨[], [], some (PutErr.validation (validate key value)), p, rs⟩) ∧
    (∀ (f : Unit → ExponentialThrottle) (p : ProducerState) (rs : List PutResp)
      (errs : List ValidationErr),
      validate key value = [] →
      (Producer.put f p key value rs).error ≠ some (PutErr.validation errs)) := by
  refine ⟨?_, ?_, ?_, ?_, ?_, ?_, ?_⟩
  · simp only [validate, errorOrNil]
    split_ifs <;> simp_all [List.length_eq_zero]
  · simp only [validate, List.mem_append]
    split_ifs <;> simp_all [List.length_eq_zero]
  · simp only [validate, List.mem_append]
    split_ifs <;> simp_all
  · simp only [validate, List.mem_append]
    split_ifs <;> simp_all
  · simp only [validate, List.mem_append]
    split_ifs <;> simp_all [List.length_eq_zero]
  · intro f p rs hne
    have hemp : (validate key value).isEmpty = false := by
      cases hv : validate key value with
      | nil => exact absurd hv hne
      | cons a l => rfl
    simp [Producer.put, hemp]
  · intro f p rs errs hv
    simp only [Producer.put, hv, List.isEmpty_nil, if_true]
    split
    · exact send_error_not_validation f _ rs errs
    · simp

/-- Witness for C4: a message with an empty key, an over-long invalid-UTF-8
    key impossible at once, so take empty key and empty payload: the error
    names exactly those two rules and the state is untouched; and a valid
    message passes. -/
theorem c4_witness :
    (errorOrNil (validate [97] [1]) = none ↔
      ([97] : List Nat) ≠ [] ∧ ([97] : List Nat).length ≤ 256 ∧
        validUtf8 [97] = true ∧ ([1] : List Nat) ≠ []) ∧
    (ValidationErr.emptyPartitionKey ∈ validate [] [] ↔ ([] : List Nat) = []) ∧
    Producer.put defaultThrottle Producer.new [] [] [] =
      ⟨[], [], some (PutErr.validation (validate [] [])), Producer.new, []⟩ :=
  ⟨(c4_validation_rules [97] [1]).1,
   (c4_validation_rules [] []).2.1,
   (c4_validation_rules [] []).2.2.2.2.2.1 defaultThrottle Producer.new [] (by decide)⟩

/-- Claim C5: a whole-batch transport error with a non-empty buffer makes
    BufferedProducer send return one FailedPut per buffered message — each
    with no error code and no error message — together with the transport
    error; the buffer is reset to empty, and exactly one submission was
    issued (no automatic resubmission). -/
theorem c5_transport_error_fails_all (b : BufferedState) (e : String)
    (hne : b.buffer ≠ []) :
    (BufferedProducer.send b (PutResp.err e)).failures.length = b.buffer.length ∧
    (BufferedProducer.send b (PutResp.err e)).failures =
      b.buffer.map (fun m => FailedPut.mk m none none) ∧
    (∀ fp ∈ (BufferedProducer.send b (PutResp.err e)).failures,
      fp.errorCode = none ∧ fp.errorMessage = none) ∧
    (BufferedProducer.send b (PutResp.err e)).error = some e ∧
    (BufferedProducer.send b (PutResp.err e)).state.buffer = [] ∧
    (BufferedProducer.send b (PutResp.err e)).calls = [b.buffer] := by
  have h : ¬ b.buffer.length = 0 := by
    simpa [List.length_eq_zero] using hne
  have hsend : BufferedProducer.send b (PutResp.err e) =
      ⟨[b.buffer], b.buffer.map (fun m => FailedPut.mk m none none), some e,
        ⟨b.sendSize, []⟩⟩ := by
    simp [BufferedProducer.send, hne]
  rw [hsend]
  refine ⟨by simp, rfl, ?_, rfl, rfl, rfl⟩
  intro fp hfp
  simp only [List.mem_map] at hfp
  obtain ⟨m, hm, hfp⟩ := hfp
  subst hfp
  exact ⟨rfl, rfl⟩

/-- Witness for C5: two buffered messages and a transport error yield two
    code-less FailedPut entries, the error, an empty buffer, one call. -/
theorem c5_witness :
    (BufferedProducer.send ⟨2, [m1, m2]⟩ (PutResp.err "boom")).failures.length =
      ([m1, m2] : List Message).length ∧
    (BufferedProducer.send ⟨2, [m1, m2]⟩ (PutResp.err "boom")).failures =
      ([m1, m2] : List Message).map (fun m => FailedPut.mk m none none) ∧
    (∀ fp ∈ (BufferedProducer.send ⟨2, [m1, m2]⟩ (PutResp.err "boom")).failures,
      fp.errorCode = none ∧ fp.errorMessage = none) ∧
    (BufferedProducer.send ⟨2, [m1, m2]⟩ (PutResp.err "boom")).error = some "boom" ∧
    (BufferedProducer.send ⟨2, [m1, m2]⟩ (PutResp.err "boom")).state.buffer = [] ∧
    (BufferedProducer.send ⟨2, [m1, m2]⟩ (PutResp.err "boom")).calls = [[m1, m2]] :=
  c5_transport_error_fails_all ⟨2, [m1, m2]⟩ "boom" (by decide)

/-- Claim C6: with a validated message and SendSize N, a Put that brings the
    buffer below N only appends (no transport call, no error); the Put that
    brings it to exactly N issues exactly one submission carrying exactly
    the N buffered messages and, on a fully successful response, leaves the
    buffer empty. -/
theorem c6_sendsize_triggers_one_submission (f : Unit → ExponentialThrottle)
    (p : ProducerState) (key value : List Nat) (rs : List PutResp)
    (hvalid : validate key value = [])
    (harr : p.arrLen ≠ 0) :
    (p.buffer.length + 1 < p.sendSize →
      Producer.put f p key value rs =
        ⟨[], [], none, ⟨p.sendSize, p.arrLen, p.buffer ++ [⟨key, value⟩]⟩, rs⟩) ∧
    (∀ (recs : List ResultEntry) (rest : List PutResp),
      p.buffer.length + 1 = p.sendSize →
      rs = PutResp.ok 0 recs :: rest →
      (p.buffer ++ [(⟨key, value⟩ : Message)]).length = p.sendSize ∧
      Producer.put f p key value rs =
        ⟨[p.buffer ++ [(⟨key, value⟩ : Message)]], [], none,
          ⟨p.sendSize, p.sendSize, []⟩, rest⟩) := by
  have hemp : (validate key value).isEmpty = true := by rw [hvalid]; rfl
  constructor
  · intro hlt
    have hne : ¬ p.buffer.length + 1 = p.sendSize := by omega
    simp [Producer.put, hemp, hne]
  · intro recs rest hlen hrs
    subst hrs
    have hlen2 : (p.buffer ++ [(⟨key, value⟩ : Message)]).length = p.sendSize := by
      simp only [List.length_append, List.length_singleton]
      omega
    refine ⟨hlen2, ?_⟩
    simp [Producer.put, hemp, hlen, Producer.send, harr, sendLoop, Producer.reset]

/-- Witness for C6: with SendSize 3 the first put only buffers; with
    SendSize 2 the second put submits both messages and empties the
    buffer. -/
theorem c6_witness :
    Producer.put defaultThrottle ⟨3, 3, []⟩ [97] [1] [] =
      ⟨[], [], none, ⟨3, 3, [⟨[97], [1]⟩]⟩, []⟩ ∧
    Producer.put defaultThrottle ⟨2, 2, [m1]⟩ [98] [2]
        [PutResp.ok 0 [okEntry, okEntry]] =
      ⟨[[m1, ⟨[98], [2]⟩]], [], none, ⟨2, 2, []⟩, []⟩ :=
  ⟨(c6_sendsize_triggers_one_submission defaultThrottle ⟨3, 3, []⟩ [97] [1] []
      (by decide) (by decide)).1 (by decide),
   ((c6_sendsize_triggers_one_submission defaultThrottle ⟨2, 2, [m1]⟩ [98] [2]
      [PutResp.ok 0 [okEntry, okEntry]] (by decide) (by decide)).2
      [okEntry, okEntry] [] (by decide) rfl).2⟩

/-- Claim C7: on a completion signal for shard S the monitor launches, from
    the re-listed shards, exactly one TRIM_HORIZON reader per shard whose
    ParentShardId (parentOne) equals S; a shard referencing S only as
    AdjacentParentShardId (parentTwo) is not launched. -/
theorem c7_children_matched_on_parent_one (completedId : String)
    (shards : List KShard) :
    monitorLaunches completedId shards =
      (shards.filter (fun s => s.parentShardId == some completedId)).map
        (fun s => (s.shardId, IterType.trimHorizon)) ∧
    (∀ l ∈ monitorLaunches completedId shards, l.2 = IterType.trimHorizon) ∧
    (monitorLaunches completedId shards).length =
      (shards.filter (fun s => s.parentShardId == some completedId)).length ∧
    (∀ id : String,
      (∃ ty, (id, ty) ∈ monitorLaunches completedId shards) ↔
        ∃ s ∈ shards, s.shardId = id ∧ s.parentShardId = some completedId) := by
  refine ⟨rfl, ?_, ?_, ?_⟩
  · intro l hl
    simp only [monitorLaunches, List.mem_map] at hl
    obtain ⟨s, hs, hl⟩ := hl
    subst hl
    rfl
  · simp [monitorLaunches, nextShards]
  · intro id
    constructor
    · rintro ⟨ty, hty⟩
      simp only [monitorLaunches, nextShards, List.mem_map, List.mem_filter] at hty
      obtain ⟨s, ⟨hs, hp⟩, heq⟩ := hty
      refine ⟨s, hs, congrArg Prod.fst heq, ?_⟩
      simpa using hp
    · rintro ⟨s, hs, hid, hp⟩
      refine ⟨IterType.trimHorizon, ?_⟩
      simp only [monitorLaunches, nextShards, List.mem_map, List.mem_filter]
      exact ⟨s, ⟨hs, by simp [hp]⟩, by rw [hid]⟩

/-- Witness for C7: after shard-01 completes, the split topology launches
    TRIM_HORIZON readers for shard-02 and shard-03 exactly. -/
theorem c7_witness :
    ("shard-02", IterType.trimHorizon) ∈
      monitorLaunches "shard-01"
        [⟨"shard-01", none, none⟩, ⟨"shard-02", some "shard-01", none⟩,
         ⟨"shard-03", some "shard-01", none⟩] ∧
    (∀ l ∈ monitorLaunches "shard-01"
        [⟨"shard-01", none, none⟩, ⟨"shard-02", some "shard-01", none⟩,
         ⟨"shard-03", some "shard-01", none⟩], l.2 = IterType.trimHorizon) :=
  ⟨by decide,
   (c7_children_matched_on_parent_one "shard-01"
      [⟨"shard-01", none, none⟩, ⟨"shard-02", some "shard-01", none⟩,
       ⟨"shard-03", some "shard-01", none⟩]).2.1⟩

/-- Claim C8 (evaluating the code at the failing input): on a topology whose
    shard listing spans two pages, listShards never terminates — each
    iteration re-requests the first page because the DescribeStream request
    never carries the last-seen-shard cursor — while the second page is
    reachable only through that cursor. -/
theorem c8_pagination_never_advances_cursor (fuel : Nat) (acc : List KShard) :
    listShards twoPageClient "stream" fuel acc = none ∧
    twoPageClient ⟨"stream", none⟩ = ⟨[shardA], true⟩ ∧
    twoPageClient ⟨"stream", some "shard-A"⟩ = ⟨[shardB], false⟩ := by
  refine ⟨?_, rfl, rfl⟩
  induction fuel generalizing acc with
  | zero => rfl
  | succ n ih => simpa [listShards, twoPageClient] using ih (acc ++ [shardA])

/-- Claim C9 (evaluating the code at the failing input): Flush on a freshly
    created Producer with zero buffered messages still issues one PutRecords
    call, carrying an empty record list — the empty-buffer guard tests the
    backing array length (MaxSendSize), never zero — whereas the older
    BufferedProducer variant correctly makes no call on an empty buffer. -/
theorem c9_flush_empty_buffer_still_calls :
    (Producer.flush defaultThrottle Producer.new [PutResp.ok 0 []]).calls =
      [([] : List Message)] ∧
    Producer.new.buffer = [] ∧
    Producer.new.arrLen = 500 ∧
    (BufferedProducer.flush ⟨MaxSendSize, []⟩ (PutResp.ok 0 [])).calls = [] :=
  ⟨rfl, rfl, rfl, rfl⟩
